import Mathlib

set_option autoImplicit false

/-
Verification of the streaming change-detection and retention pipeline
(worker of the p0-myadmin repository): the base-58 address codec, the
gRPC stream-connection state machine, the change processor, and the
retention pruner, shallowly embedded in Lean following the TypeScript
sources (worker/src/grpc.ts, worker/src/processor.ts, the cleanup job).
Bytes are modelled as Nat (each < 256 where relevant); JS Maps are
modelled as insertion-ordered association lists with unique keys.
-/

namespace MyAdmin

/-! ## AddressCodec (worker/src/grpc.ts, toBase58) -/

/-- The 58-character alphabet constant of toBase58. -/
def ALPHABET : String := "123456789ABCDEFGHJKLMNPQRSTUVWXYZabcdefghijkmnopqrstuvwxyz"

/-- Inner loop of toBase58 for one input byte: given the incoming carry and
the current little-endian digit list, returns the updated digits and the
carry left after the loop (carry += digits[i] << 8; digits[i] = carry % 58;
carry = floor(carry / 58)). -/
def addByteStep : Nat → List Nat → List Nat × Nat
  | carry, [] => ([], carry)
  | carry, d :: rest =>
    let c := carry + d * 256
    let out := addByteStep (c / 58) rest
    (c % 58 :: out.1, out.2)

/-- Structural helper for pushCarry: the first argument is fuel bounding
the number of divisions; since the carry strictly decreases under division
by 58, fuel equal to the carry itself always suffices. -/
def pushCarryGo : Nat → Nat → List Nat
  | _, 0 => []
  | 0, _ + 1 => []
  | fuel + 1, c + 1 => ((c + 1) % 58) :: pushCarryGo fuel ((c + 1) / 58)

/-- The while-loop of toBase58 pushing the remaining carry as base-58
digits (while carry > 0: digits.push(carry % 58); carry = floor(carry / 58)). -/
def pushCarry (carry : Nat) : List Nat :=
  pushCarryGo carry carry

/-- Processing of one input byte in toBase58: run the inner loop over the
digit list, then append the remaining carry digits. -/
def processByte (digits : List Nat) (byte : Nat) : List Nat :=
  let out := addByteStep byte digits
  out.1 ++ pushCarry out.2

/-- The digit accumulation of toBase58: the digit list starts as [0] and
every input byte is folded in. -/
def base58Digits (bytes : List Nat) : List Nat :=
  bytes.foldl processByte [0]

/-- Character for a base-58 digit (ALPHABET[d]). -/
def b58Char (d : Nat) : Char :=
  (ALPHABET.toList).getD d '1'

/-- The leading-zero pass of toBase58: one zero-digit character per leading
zero byte of the input. -/
def leadingOnes (bytes : List Nat) : List Char :=
  (bytes.takeWhile (fun b => b == 0)).map (fun _ => '1')

/-- toBase58 from worker/src/grpc.ts: leading-zero characters followed by
the accumulated digits most-significant first. -/
def toBase58 (bytes : List Nat) : String :=
  String.mk (leadingOnes bytes ++ (base58Digits bytes).reverse.map b58Char)

/-- Value of one base-58 character (its index in the alphabet). -/
def b58CharVal (c : Char) : Nat :=
  (ALPHABET.toList).indexOf c

/-- Structural helper for natToBytesBE with a fuel argument; fuel equal to
the number itself always suffices since division by 256 strictly decreases
positive numbers. -/
def natToBytesBEGo : Nat → Nat → List Nat
  | _, 0 => []
  | 0, _ + 1 => []
  | fuel + 1, n + 1 => natToBytesBEGo fuel ((n + 1) / 256) ++ [(n + 1) % 256]

/-- Big-endian byte representation of a natural number (empty for zero). -/
def natToBytesBE (n : Nat) : List Nat :=
  natToBytesBEGo n n

/-- Modelled from the spec: the base-58 decoder, absent from the worker
sources. Per the spec the decoder must invert the encoder exactly,
including the leading-zero handling: each leading zero-digit character
becomes one zero byte, and the digit string is read as a base-58
big-endian integer whose big-endian bytes follow. -/
def fromBase58 (s : String) : List Nat :=
  let cs := s.toList
  let zeros := cs.takeWhile (fun c => c == '1')
  let val := cs.foldl (fun n c => n * 58 + b58CharVal c) 0
  zeros.map (fun _ => 0) ++ natToBytesBE val

/-! ## StreamConnection (worker/src/grpc.ts, GrpcClient) -/

/-- One entry of the accounts field of a subscription request
(owner filter and account list; the filters array is always empty in the
source and is omitted). -/
structure SubAccountsFilter where
  owner : List String
  account : List String
deriving DecidableEq

/-- A subscription request as written to the stream; only the accounts
filter map and the optional ping id distinguish the requests the client
ever sends (the slots/commitment fields are constants in the source). -/
structure SubscribeRequest where
  accounts : List (String × SubAccountsFilter)
  ping : Option Nat
deriving DecidableEq

/-- State of the GrpcClient: whether a stream session is open, whether the
keepalive timer runs, the log of requests written to the stream, the
subscriptions map (programId to subscriptionKey, insertion ordered), the
reconnecting flag and the reconnect attempt counter. -/
structure GrpcState where
  streamOpen : Bool
  pingTimer : Bool
  sent : List SubscribeRequest
  subscriptions : List (String × String)
  reconnecting : Bool
  reconnectAttempts : Nat
deriving DecidableEq

/-- maxReconnectAttempts of GrpcClient. -/
def maxReconnectAttempts : Nat := 20

/-- baseReconnectDelay of GrpcClient (milliseconds). -/
def baseReconnectDelay : Nat := 1000

/-- maxReconnectDelay of GrpcClient (milliseconds). -/
def maxReconnectDelay : Nat := 60000

/-- Membership test of the subscriptions map (Map.has). -/
def mapHas (m : List (String × String)) (k : String) : Bool :=
  m.any (fun e => e.1 == k)

/-- Lookup in the subscriptions map (Map.get). -/
def mapGet (m : List (String × String)) (k : String) : Option String :=
  (m.find? (fun e => e.1 == k)).map Prod.snd

/-- Deletion from the subscriptions map (Map.delete); keys are unique so
removing the first matching entry is exact. -/
def mapDelete : List (String × String) → String → List (String × String)
  | [], _ => []
  | (k, v) :: rest, key => if k == key then rest else (k, v) :: mapDelete rest key

/-- subscribeToProgram: requires an open stream, is a no-op when already
subscribed, and otherwise only records the subscription key (nothing is
written to the stream). -/
def subscribeToProgram (s : GrpcState) (programId : String) :
    Except String GrpcState :=
  if !s.streamOpen then .error "gRPC stream not connected"
  else if mapHas s.subscriptions programId then .ok s
  else .ok { s with subscriptions :=
    s.subscriptions ++ [(programId, "program_" ++ programId)] }

/-- The combined subscription request built by sendSubscriptions: one
accounts entry per subscription, keyed by the subscription key, with the
programId as owner filter. -/
def combinedRequest (subs : List (String × String)) : SubscribeRequest :=
  { accounts := subs.map (fun e => (e.2, { owner := [e.1], account := [] }))
    ping := none }

/-- sendSubscriptions: requires an open stream; with an empty subscription
map it returns without writing; otherwise it writes the combined request
(writeOk models the stream.write callback outcome). -/
def sendSubscriptions (s : GrpcState) (writeOk : Bool) :
    Except String GrpcState :=
  if !s.streamOpen then .error "gRPC stream not connected"
  else if s.subscriptions.isEmpty then .ok s
  else if writeOk then .ok { s with sent := s.sent ++ [combinedRequest s.subscriptions] }
  else .error "Failed to send subscriptions"

/-- The request written by unsubscribeFromProgram: all filter maps empty. -/
def emptyUnsubRequest : SubscribeRequest :=
  { accounts := [], ping := none }

/-- unsubscribeFromProgram: requires an open stream, is a no-op when not
subscribed, and otherwise writes the empty request and, once the write
callback succeeds, deletes the entry from the subscriptions map. -/
def unsubscribeFromProgram (s : GrpcState) (programId : String)
    (writeOk : Bool) : Except String GrpcState :=
  if !s.streamOpen then .error "gRPC stream not connected"
  else
    match mapGet s.subscriptions programId with
    | none => .ok s
    | some _ =>
      if writeOk then
        .ok { s with sent := s.sent ++ [emptyUnsubRequest]
                     subscriptions := mapDelete s.subscriptions programId }
      else .error "Failed to unsubscribe"

/-- resubscribeAll: reads the remembered program ids, clears the map, and
re-runs subscribeToProgram for each (errors are caught and logged, leaving
the fold state unchanged for that program). -/
def resubscribeAll (s : GrpcState) : GrpcState :=
  let programs := s.subscriptions.map Prod.fst
  programs.foldl
    (fun st pid =>
      match subscribeToProgram st pid with
      | .ok st' => st'
      | .error _ => st)
    { s with subscriptions := [] }

/-- State produced by a successful connect: the stream is open, the
keepalive timer started, and resubscribeAll has run. -/
def connectOkState (s : GrpcState) : GrpcState :=
  resubscribeAll { s with streamOpen := true, pingTimer := true }

/-- connect: on subscribe failure the error is rethrown; on success the
stream handlers and keepalive timer are installed and resubscribeAll runs.
No request is written to the stream by connect itself. -/
def connect (s : GrpcState) (subscribeOk : Bool) : Except String GrpcState :=
  if subscribeOk then .ok (connectOkState s) else .error "Failed to connect to gRPC"

/-- Delay before the reconnect attempt scheduled with the given attempt
counter value (exponential backoff capped at maxReconnectDelay). -/
def reconnectDelay (attempt : Nat) : Nat :=
  min (baseReconnectDelay * 2 ^ attempt) maxReconnectDelay

/-- Outcome of handleDisconnect: ignored (already reconnecting), gave up
(attempt ceiling reached), or a reconnect scheduled after a delay. -/
inductive DisconnectOutcome where
  | ignored
  | gaveUp
  | scheduled (delay : Nat)
deriving DecidableEq

/-- handleDisconnect: no-op while already reconnecting; gives up once the
attempt counter has reached maxReconnectAttempts; otherwise stops the
keepalive timer, schedules a reconnect after the backoff delay, and
increments the attempt counter. -/
def handleDisconnect (s : GrpcState) : GrpcState × DisconnectOutcome :=
  if s.reconnecting then (s, .ignored)
  else if maxReconnectAttempts ≤ s.reconnectAttempts then
    ({ s with pingTimer := false, reconnecting := false }, .gaveUp)
  else
    ({ s with pingTimer := false, reconnecting := true,
              reconnectAttempts := s.reconnectAttempts + 1 },
      .scheduled (reconnectDelay s.reconnectAttempts))

/-- Body of the scheduled reconnect attempt: on a successful connect the
attempt counter resets to zero and the reconnecting flag clears; on
failure the flag clears and handleDisconnect runs again with the
incremented counter. -/
def finishReconnectAttempt (s : GrpcState) (connectOk : Bool) :
    GrpcState × Option DisconnectOutcome :=
  if connectOk then
    ({ connectOkState s with reconnectAttempts := 0, reconnecting := false }, none)
  else
    let r := handleDisconnect { s with reconnecting := false }
    (r.1, some r.2)

/-- Iterated disconnect signals: folds handleDisconnect over k successive
stream error or end events, collecting the outcomes. -/
def iterateDisconnect (s : GrpcState) : Nat → GrpcState × List DisconnectOutcome
  | 0 => (s, [])
  | k + 1 =>
    let r := handleDisconnect s
    let rest := iterateDisconnect r.1 k
    (rest.1, r.2 :: rest.2)

/-! ## ChangeProcessor (worker/src/processor.ts)

The content hash (sha256 hex in the source) enters the claims only through
equality comparisons, so it is abstracted as an explicit function
parameter H from byte lists to strings. -/

/-- Decoded account update delivered by the gRPC client. -/
structure AccountUpdate where
  pubkey : String
  owner : String
  lamports : Nat
  slot : Nat
  data : List Nat
  executable : Bool
  rentEpoch : Nat
deriving DecidableEq

/-- Buffered update with computed hash (processor.ts). -/
structure BufferedUpdate where
  pubkey : String
  programId : String
  slot : Nat
  data : List Nat
  dataHash : String
  discriminator : Option String
  isDeleted : Bool
deriving DecidableEq

/-- Row handed to insertAccountStates (db.ts AccountState; created_at is
assigned by the database and never set or read by the worker, so it is
omitted). -/
structure AccountState where
  pubkey : String
  program_id : String
  discriminator : Option String
  slot : Nat
  change_type : String
  data : String
  data_hash : String
deriving DecidableEq

/-- Hexadecimal digit characters. -/
def HEXDIGITS : List Char := "0123456789abcdef".toList

/-- Two lowercase hex characters of one byte. -/
def hexByte (b : Nat) : List Char :=
  [HEXDIGITS.getD (b / 16) '0', HEXDIGITS.getD (b % 16) '0']

/-- Lowercase hex encoding of a byte list (Buffer.toString hex). -/
def toHex (bs : List Nat) : String :=
  String.mk (bs.map hexByte).flatten

/-- Base64 alphabet. -/
def B64DIGITS : List Char :=
  "ABCDEFGHIJKLMNOPQRSTUVWXYZabcdefghijklmnopqrstuvwxyz0123456789+/".toList

/-- Character for a 6-bit value. -/
def b64Char (n : Nat) : Char := B64DIGITS.getD n 'A'

/-- Base64 chunk encoding of a byte list with padding. -/
def base64Chunks : List Nat → List Char
  | [] => []
  | [a] => [b64Char (a / 4), b64Char (a % 4 * 16), '=', '=']
  | [a, b] => [b64Char (a / 4), b64Char (a % 4 * 16 + b / 16), b64Char (b % 16 * 4), '=']
  | a :: b :: c :: rest =>
    b64Char (a / 4) :: b64Char (a % 4 * 16 + b / 16) ::
      b64Char (b % 16 * 4 + c / 64) :: b64Char (c % 64) :: base64Chunks rest

/-- Base64 encoding of a byte list (Buffer.toString base64). -/
def toBase64 (bs : List Nat) : String :=
  String.mk (base64Chunks bs)

/-- The buffer map of ChangeProcessor: pubkey to BufferedUpdate, insertion
ordered with unique keys. -/
abbrev Buffer := List (String × BufferedUpdate)

/-- Map.set on the buffer: replace the entry in place when the key exists,
otherwise append. -/
def mapSet : Buffer → String → BufferedUpdate → Buffer
  | [], k, v => [(k, v)]
  | (k', v') :: rest, k, v =>
    if k' == k then (k, v) :: rest else (k', v') :: mapSet rest k v

/-- The BufferedUpdate built by addUpdate from a decoded update: sha256
hash of the data (abstracted as H), discriminator from the first 8 bytes
as hex when the data is long enough, and the deletion flag from zero
lamports or empty data. -/
def mkBuffered (H : List Nat → String) (u : AccountUpdate) : BufferedUpdate :=
  { pubkey := u.pubkey
    programId := u.owner
    slot := u.slot
    data := u.data
    dataHash := H u.data
    discriminator :=
      if 8 ≤ u.data.length then some (toHex (u.data.take 8)) else none
    isDeleted := u.lamports == 0 || u.data.length == 0 }

/-- addUpdate: buffer the computed update by pubkey, overwriting any
earlier entry for the same pubkey. -/
def addUpdate (H : List Nat → String) (b : Buffer) (u : AccountUpdate) : Buffer :=
  mapSet b u.pubkey (mkBuffered H u)

/-- One step of the grouping of snapshotted updates by programId
(Map get-or-default, push, set). -/
def groupInsert (acc : List (String × List BufferedUpdate)) (u : BufferedUpdate) :
    List (String × List BufferedUpdate) :=
  match acc with
  | [] => [(u.programId, [u])]
  | (k, g) :: rest =>
    if k == u.programId then (k, g ++ [u]) :: rest
    else (k, g) :: groupInsert rest u

/-- Row produced for one snapshotted update, given the batched hash lookup
result for its program: skipped without a baseline hash, skipped when the
stored hash equals the update hash, otherwise an update or delete row. -/
def rowOf (lookup : String → String → Option String) (pid : String)
    (u : BufferedUpdate) : Option AccountState :=
  match lookup pid u.pubkey with
  | none => none
  | some h =>
    if h == u.dataHash then none
    else some
      { pubkey := u.pubkey
        program_id := u.programId
        discriminator := u.discriminator
        slot := u.slot
        change_type := if u.isDeleted then "delete" else "update"
        data := toBase64 u.data
        data_hash := u.dataHash }

/-- The states array accumulated by processBuffer over all program groups
of the snapshot: per group, one batched lookup keyed by the group's
programId, then one optional row per update. -/
def computeStates (lookup : String → String → Option String)
    (updates : List BufferedUpdate) : List AccountState :=
  (updates.foldl groupInsert []).foldl
    (fun acc g => acc ++ g.2.filterMap (rowOf lookup g.1)) []

/-- Result of one processBuffer call: the snapshot taken from the buffer,
the rows handed to insertAccountStates, the buffer as left behind, and
whether an error escaped the call (never, because of the try/catch). -/
structure FlushResult where
  snapshot : List BufferedUpdate
  inserted : List AccountState
  buffer : Buffer
  raised : Bool
deriving DecidableEq

/-- processBuffer: returns immediately on an empty buffer; otherwise takes
a snapshot of the buffer values, computes the change rows, and hands them
to insertAccountStates. The arrivals parameter lists the addUpdate calls
the inbound stream delivers while the batched lookups and the insert are
awaited; they mutate the live buffer map. When the insert fails the error
is caught and the live buffer is left as it stands; otherwise
this.buffer.clear() empties the whole live map. -/
def processBuffer (H : List Nat → String)
    (lookup : String → String → Option String) (insertOk : Bool)
    (buffer : Buffer) (arrivals : List AccountUpdate) : FlushResult :=
  if buffer.isEmpty then
    { snapshot := [], inserted := [],
      buffer := arrivals.foldl (addUpdate H) buffer, raised := false }
  else if ¬(computeStates lookup (buffer.map Prod.snd)).isEmpty ∧ insertOk = false then
    { snapshot := buffer.map Prod.snd, inserted := [],
      buffer := arrivals.foldl (addUpdate H) buffer, raised := false }
  else
    { snapshot := buffer.map Prod.snd,
      inserted := computeStates lookup (buffer.map Prod.snd),
      buffer := [], raised := false }

/-! ## RetentionPruner (cleanup job, pruneAccountChanges)

One record of one (programId, pubkey) is represented by the list of
created_at timestamps of its stored rows, modelled as Nat. The database
select with descending order on created_at limited to K is modelled by
sorting with the reflexive ge relation and taking K. -/

/-- The cutoff timestamp of the prune: the oldest among the K most
recent rows, i.e. the last entry of the newest-first select limited to K
(getLastD with default 0, as keepStates is indexed at its last slot). -/
def pruneCutoff (K : Nat) (rows : List Nat) : Nat :=
  ((List.insertionSort (· ≥ ·) rows).take K).getLastD 0

/-- pruneAccountChanges for one record: fetch the K most recent
timestamps newest first; when fewer than K rows exist delete nothing;
otherwise take the oldest of those K as cutoff and delete every row with
a strictly smaller timestamp in one bulk statement. Returns the rows kept
and the deleted count. -/
def pruneAccountChanges (K : Nat) (rows : List Nat) : List Nat × Nat :=
  if ((List.insertionSort (· ≥ ·) rows).take K).length < K then (rows, 0)
  else
    (rows.filter (fun t => decide (pruneCutoff K rows ≤ t)),
      (rows.filter (fun t => decide (t < pruneCutoff K rows))).length)

/-! ## Theorems -/

/-- C1: the claim fails on the code. The encoder initialises its digit
list as a single zero digit and always emits it, so the 32-byte all-zero
input yields one zero-digit character for each of the 32 leading zero
bytes plus one for the digit list: 33 characters. Decoding that text
yields 33 zero bytes, not the original 32, so decode(encode(x)) = x fails
at the all-zero input (while the all-0xFF input does round-trip). -/
theorem c1_allZero_roundTrip_breaks :
    toBase58 (List.replicate 32 0) = String.mk (List.replicate 33 '1') ∧
    fromBase58 (toBase58 (List.replicate 32 0)) = List.replicate 33 0 ∧
    List.replicate 33 (0 : Nat) ≠ List.replicate 32 0 ∧
    fromBase58 (toBase58 (List.replicate 32 255)) = List.replicate 32 255 := by
  exact ⟨by decide, by decide, by decide, by decide⟩

/-- C10: with no open stream session, subscribeToProgram, sendSubscriptions
and unsubscribeFromProgram all fail with the gRPC stream not connected
error before touching the subscription set (the thrown error carries no
modified state). -/
theorem c10_ops_require_open_stream (s : GrpcState) (pid : String)
    (writeOk : Bool) (h : s.streamOpen = false) :
    subscribeToProgram s pid = Except.error "gRPC stream not connected" ∧
    sendSubscriptions s writeOk = Except.error "gRPC stream not connected" ∧
    unsubscribeFromProgram s pid writeOk = Except.error "gRPC stream not connected" := by
  unfold subscribeToProgram sendSubscriptions unsubscribeFromProgram
  simp [h]

/-- Concrete GrpcState with no open stream, used to witness C10. -/
def closedGrpcState : GrpcState :=
  { streamOpen := false, pingTimer := false, sent := []
    subscriptions := [("progA", "program_progA")]
    reconnecting := false, reconnectAttempts := 0 }

/-- Witness for C10 at a concrete disconnected state. -/
theorem c10_ops_require_open_stream_witness :
    subscribeToProgram closedGrpcState "progA" = Except.error "gRPC stream not connected" ∧
    sendSubscriptions closedGrpcState true = Except.error "gRPC stream not connected" ∧
    unsubscribeFromProgram closedGrpcState "progA" true = Except.error "gRPC stream not connected" :=
  c10_ops_require_open_stream closedGrpcState "progA" true rfl

/-- The resubscribe fold touches only the subscriptions map:
subscribeToProgram records keys and writes nothing to the stream, so the
wire log and the stream flag are preserved. -/
theorem resubscribeFold_preserves (ps : List String) (st : GrpcState) :
    (ps.foldl
      (fun st pid =>
        match subscribeToProgram st pid with
        | .ok st' => st'
        | .error _ => st)
      st).sent = st.sent ∧
    (ps.foldl
      (fun st pid =>
        match subscribeToProgram st pid with
        | .ok st' => st'
        | .error _ => st)
      st).streamOpen = st.streamOpen := by
  induction ps generalizing st with
  | nil => exact ⟨rfl, rfl⟩
  | cons p ps ih =>
    simp only [List.foldl]
    constructor
    · rw [(ih _).1]
      unfold subscribeToProgram
      by_cases h1 : st.streamOpen
      · by_cases h2 : mapHas st.subscriptions p <;> simp [h1, h2]
      · simp [h1]
    · rw [(ih _).2]
      unfold subscribeToProgram
      by_cases h1 : st.streamOpen
      · by_cases h2 : mapHas st.subscriptions p <;> simp [h1, h2]
      · simp [h1]

/-- C6: the claim fails on the code. A successful connect runs
resubscribeAll, which clears and repopulates the in-memory subscription
map via subscribeToProgram, but subscribeToProgram writes nothing to the
stream and sendSubscriptions is never called on the connect path, so no
subscription request at all is re-issued over the wire after a
reconnect. -/
theorem c6_connect_resends_nothing (s : GrpcState) :
    connect s true = Except.ok (connectOkState s) ∧
    (connectOkState s).sent = s.sent ∧
    (connectOkState s).streamOpen = true := by
  refine ⟨rfl, ?_, ?_⟩
  · unfold connectOkState resubscribeAll
    exact (resubscribeFold_preserves _ _).1
  · unfold connectOkState resubscribeAll
    exact (resubscribeFold_preserves _ _).2

/-- Concrete connected GrpcState with two subscriptions, for C7. -/
def c7State : GrpcState :=
  { streamOpen := true, pingTimer := true, sent := []
    subscriptions := [("progA", "program_progA"), ("progB", "program_progB")]
    reconnecting := false, reconnectAttempts := 0 }

/-- C7 counterexample: unsubscribing progA from a set containing progA and
progB sends the all-empty request, not a request carrying the filter of
the remaining namespace progB, so the sent request does not reflect the
new smaller set. -/
theorem c7_unsubscribe_request_not_remaining_set :
    unsubscribeFromProgram c7State "progA" true =
      Except.ok { c7State with
        sent := [emptyUnsubRequest],
        subscriptions := [("progB", "program_progB")] } ∧
    emptyUnsubRequest ≠ combinedRequest [("progB", "program_progB")] := by
  exact ⟨rfl, by decide⟩

/-- C7 amended: unsubscribeFromProgram with an open stream and a
subscribed id removes exactly that entry from the subscription set once
the write callback succeeds, and sends one subscription request whose
accounts filter map is empty, regardless of the namespaces remaining in
the set. -/
theorem c7_unsubscribe_sends_empty_request (s : GrpcState) (pid key : String)
    (hOpen : s.streamOpen = true)
    (hSub : mapGet s.subscriptions pid = some key) :
    unsubscribeFromProgram s pid true =
      Except.ok { s with
        sent := s.sent ++ [emptyUnsubRequest],
        subscriptions := mapDelete s.subscriptions pid } ∧
    emptyUnsubRequest.accounts = [] := by
  constructor
  · unfold unsubscribeFromProgram
    rw [hSub]
    simp [hOpen]
  · rfl

/-- Witness for the amended C7 at a concrete connected state. -/
theorem c7_unsubscribe_sends_empty_request_witness :
    unsubscribeFromProgram c7State "progA" true =
      Except.ok { c7State with
        sent := c7State.sent ++ [emptyUnsubRequest],
        subscriptions := mapDelete c7State.subscriptions "progA" } ∧
    emptyUnsubRequest.accounts = [] :=
  c7_unsubscribe_sends_empty_request c7State "progA" "program_progA" rfl rfl

/-- At or above the attempt ceiling, handleDisconnect preserves the
counter and never schedules an attempt. -/
theorem handleDisconnect_ceiling (s : GrpcState)
    (h : maxReconnectAttempts ≤ s.reconnectAttempts) :
    (handleDisconnect s).1.reconnectAttempts = s.reconnectAttempts ∧
    ∀ d, (handleDisconnect s).2 ≠ DisconnectOutcome.scheduled d := by
  unfold handleDisconnect
  by_cases hr : s.reconnecting <;> simp [hr, h]

/-- At or above the attempt ceiling, no number of further disconnect
signals ever schedules a reconnect attempt. -/
theorem iterateDisconnect_no_schedule (s : GrpcState)
    (h : maxReconnectAttempts ≤ s.reconnectAttempts) :
    ∀ k d, DisconnectOutcome.scheduled d ∉ (iterateDisconnect s k).2 := by
  intro k
  induction k generalizing s with
  | zero => intro d hd; exact absurd hd (List.not_mem_nil _)
  | succ k ih =>
    intro d hd
    obtain ⟨hcnt, hout⟩ := handleDisconnect_ceiling s h
    simp only [iterateDisconnect, List.mem_cons] at hd
    rcases hd with hd | hd
    · exact hout d hd.symm
    · exact ih (handleDisconnect s).1 (hcnt ▸ h) d hd

/-- C8: the n-th reconnect attempt, counting from 0, is scheduled after
min(1000 * 2^n, 60000) milliseconds, giving 1000, 2000, 4000, 8000,
16000, 32000, 60000, 60000, ...; scheduling increments the counter, a
successful reconnect resets it to zero, a failed one re-runs
handleDisconnect with the incremented counter, and once the counter has
reached 20 every disconnect signal gives up, permanently: no further
attempt is ever scheduled. -/
theorem c8_reconnect_backoff :
    ((List.range 8).map reconnectDelay =
      [1000, 2000, 4000, 8000, 16000, 32000, 60000, 60000]) ∧
    (∀ n, 6 ≤ n → reconnectDelay n = 60000) ∧
    (∀ s : GrpcState, s.reconnecting = false →
      s.reconnectAttempts < maxReconnectAttempts →
      (handleDisconnect s).2 =
        DisconnectOutcome.scheduled (reconnectDelay s.reconnectAttempts) ∧
      (handleDisconnect s).1.reconnectAttempts = s.reconnectAttempts + 1) ∧
    (∀ s : GrpcState, (finishReconnectAttempt s true).1.reconnectAttempts = 0) ∧
    (∀ s : GrpcState, maxReconnectAttempts ≤ s.reconnectAttempts →
      (finishReconnectAttempt s false).2 = some DisconnectOutcome.gaveUp ∧
      (finishReconnectAttempt s false).1.reconnectAttempts = s.reconnectAttempts) ∧
    (∀ s : GrpcState, s.reconnectAttempts < maxReconnectAttempts →
      (finishReconnectAttempt s false).2 =
        some (DisconnectOutcome.scheduled (reconnectDelay s.reconnectAttempts)) ∧
      (finishReconnectAttempt s false).1.reconnectAttempts = s.reconnectAttempts + 1) ∧
    (∀ s : GrpcState, maxReconnectAttempts ≤ s.reconnectAttempts →
      ∀ k d, DisconnectOutcome.scheduled d ∉ (iterateDisconnect s k).2) := by
  refine ⟨by decide, ?_, ?_, ?_, ?_, ?_, ?_⟩
  · intro n hn
    unfold reconnectDelay baseReconnectDelay maxReconnectDelay
    have h64 : (64 : Nat) ≤ 2 ^ n := by
      calc (64 : Nat) = 2 ^ 6 := by norm_num
        _ ≤ 2 ^ n := Nat.pow_le_pow_right (by norm_num) hn
    have hbig : (60000 : Nat) ≤ 1000 * 2 ^ n := by
      have := Nat.mul_le_mul_left 1000 h64
      omega
    exact Nat.min_eq_right hbig
  · intro s hr hlt
    unfold handleDisconnect
    simp [hr, Nat.not_le.mpr hlt]
  · intro s
    unfold finishReconnectAttempt
    simp
  · intro s h
    unfold finishReconnectAttempt handleDisconnect
    simp [h]
  · intro s hlt
    unfold finishReconnectAttempt handleDisconnect
    simp [Nat.not_le.mpr hlt]
  · intro s h
    exact iterateDisconnect_no_schedule s h

/-- Fresh GrpcState used to witness C8. -/
def freshGrpcState : GrpcState :=
  { streamOpen := false, pingTimer := false, sent := [], subscriptions := []
    reconnecting := false, reconnectAttempts := 0 }

/-- Witness for C8 at concrete states: the first scheduled attempt waits
1000 ms and increments the counter, success resets a counter of 5 to
zero, and a state at the ceiling of 20 never schedules again. -/
theorem c8_reconnect_backoff_witness :
    reconnectDelay 6 = 60000 ∧
    ((handleDisconnect freshGrpcState).2 = DisconnectOutcome.scheduled 1000 ∧
      (handleDisconnect freshGrpcState).1.reconnectAttempts = 1) ∧
    (finishReconnectAttempt { freshGrpcState with reconnectAttempts := 5 }
      true).1.reconnectAttempts = 0 ∧
    DisconnectOutcome.scheduled 1000 ∉
      (iterateDisconnect { freshGrpcState with reconnectAttempts := 20 } 3).2 := by
  refine ⟨c8_reconnect_backoff.2.1 6 (by norm_num), ?_, ?_, ?_⟩
  · have h := c8_reconnect_backoff.2.2.1 freshGrpcState rfl (by decide)
    exact ⟨h.1.trans (by decide), h.2⟩
  · exact c8_reconnect_backoff.2.2.2.1 { freshGrpcState with reconnectAttempts := 5 }
  · exact c8_reconnect_backoff.2.2.2.2.2.2
      { freshGrpcState with reconnectAttempts := 20 } (by decide) 3 1000

/-- Concrete hash function standing in for the abstract sha256 parameter
in concrete processor runs (only hash equality matters to the claims). -/
def hexHash : List Nat → String := toHex

/-- Concrete update for pubkey A under program P. -/
def updA : AccountUpdate :=
  { pubkey := "A", owner := "P", lamports := 5, slot := 1, data := [1]
    executable := false, rentEpoch := 0 }

/-- Concrete update for pubkey B under program P, arriving mid-flush. -/
def updB : AccountUpdate :=
  { pubkey := "B", owner := "P", lamports := 5, slot := 2, data := [2]
    executable := false, rentEpoch := 0 }

/-- Store lookup with a stored baseline hash only for pubkey A under
program P. -/
def lookupA : String → String → Option String :=
  fun pid k => if pid = "P" ∧ k = "A" then some "00" else none

/-- C2: the claim fails on the code. A flush snapshots the buffer values,
awaits the batched lookup and insert, and then clears the whole live map,
so an update buffered for pubkey B after the snapshot but before the
clear is neither in the snapshot being persisted nor in the buffer after
the flush: it is silently dropped and no later flush processes it. -/
theorem c2_inflight_update_lost :
    (processBuffer hexHash lookupA true (addUpdate hexHash [] updA) [updB]).buffer = [] ∧
    (∀ row ∈ (processBuffer hexHash lookupA true (addUpdate hexHash [] updA) [updB]).inserted,
      row.pubkey ≠ "B") ∧
    mkBuffered hexHash updB ∉
      (processBuffer hexHash lookupA true (addUpdate hexHash [] updA) [updB]).snapshot ∧
    (processBuffer hexHash lookupA true (addUpdate hexHash [] updA) [updB]).inserted ≠ [] := by
  exact ⟨by decide, by decide, by decide, by decide⟩

/-- C3: when the batched insert of a flush fails, the error is caught
inside processBuffer (raised is false by construction of the catch), the
buffer is left exactly as it was when no updates arrive during the flush,
nothing is recorded as inserted, and the next flush snapshots the
identical set of updates. -/
theorem c3_failed_insert_retries (H : List Nat → String)
    (lookup : String → String → Option String) (buffer : Buffer)
    (hs : computeStates lookup (buffer.map Prod.snd) ≠ []) :
    (processBuffer H lookup false buffer []).buffer = buffer ∧
    (processBuffer H lookup false buffer []).inserted = [] ∧
    (processBuffer H lookup false buffer []).raised = false ∧
    (processBuffer H lookup false buffer []).snapshot = buffer.map Prod.snd ∧
    (processBuffer H lookup false
      ((processBuffer H lookup false buffer []).buffer) []).snapshot =
      buffer.map Prod.snd := by
  have hb : buffer ≠ [] := by
    intro h
    subst h
    exact hs rfl
  have hbe : buffer.isEmpty = false := by
    cases buffer with
    | nil => exact absurd rfl hb
    | cons e rest => rfl
  have hse : (computeStates lookup (buffer.map Prod.snd)).isEmpty = false := by
    cases hcs : computeStates lookup (buffer.map Prod.snd) with
    | nil => exact absurd hcs hs
    | cons r rest => rfl
  have key : processBuffer H lookup false buffer [] =
      { snapshot := buffer.map Prod.snd, inserted := [], buffer := buffer
        raised := false } := by
    unfold processBuffer
    rw [hbe]
    simp [hse]
  rw [key]
  exact ⟨rfl, rfl, rfl, rfl, by rw [key]⟩

/-- Witness for C3 at a concrete one-entry buffer whose pubkey has a
differing stored baseline hash, with a failing insert. -/
theorem c3_failed_insert_retries_witness :
    (processBuffer hexHash lookupA false (addUpdate hexHash [] updA) []).buffer =
      addUpdate hexHash [] updA ∧
    (processBuffer hexHash lookupA false (addUpdate hexHash [] updA) []).inserted = [] ∧
    (processBuffer hexHash lookupA false (addUpdate hexHash [] updA) []).raised = false ∧
    (processBuffer hexHash lookupA false (addUpdate hexHash [] updA) []).snapshot =
      (addUpdate hexHash [] updA).map Prod.snd ∧
    (processBuffer hexHash lookupA false
      ((processBuffer hexHash lookupA false (addUpdate hexHash [] updA) []).buffer) []).snapshot =
      (addUpdate hexHash [] updA).map Prod.snd :=
  c3_failed_insert_retries hexHash lookupA (addUpdate hexHash [] updA) (by decide)

/-- Values in the groups built by groupInsert all carry their group's
programId, provided the accumulator already satisfies this. -/
theorem groupInsert_programId (u : BufferedUpdate)
    (acc : List (String × List BufferedUpdate))
    (hacc : ∀ g ∈ acc, ∀ v ∈ g.2, v.programId = g.1) :
    ∀ g ∈ groupInsert acc u, ∀ v ∈ g.2, v.programId = g.1 := by
  induction acc with
  | nil =>
    intro g hg v hv
    simp only [groupInsert, List.mem_singleton] at hg
    subst hg
    simp only [List.mem_singleton] at hv
    subst hv
    rfl
  | cons e rest ih =>
    intro g hg v hv
    obtain ⟨k, gl⟩ := e
    simp only [groupInsert] at hg
    by_cases hk : k == u.programId
    · rw [if_pos hk] at hg
      rcases List.mem_cons.mp hg with hg | hg
      · subst hg
        rcases List.mem_append.mp hv with hv | hv
        · exact hacc (k, gl) (List.mem_cons_self _ _) v hv
        · simp only [List.mem_singleton] at hv
          subst hv
          exact (eq_of_beq hk).symm
      · exact hacc g (List.mem_cons_of_mem _ hg) v hv
    · rw [if_neg hk] at hg
      rcases List.mem_cons.mp hg with hg | hg
      · subst hg
        exact hacc (k, gl) (List.mem_cons_self _ _) v hv
      · exact ih (fun g' hg' => hacc g' (List.mem_cons_of_mem _ hg')) g hg v hv

/-- Values in the groups built by folding groupInsert over a snapshot all
carry their group's programId. -/
theorem groupFold_programId (L : List BufferedUpdate) :
    ∀ acc, (∀ g ∈ acc, ∀ v ∈ g.2, v.programId = g.1) →
      ∀ g ∈ L.foldl groupInsert acc, ∀ v ∈ g.2, v.programId = g.1 := by
  induction L with
  | nil => intro acc hacc; exact hacc
  | cons u L ih =>
    intro acc hacc
    exact ih (groupInsert acc u) (groupInsert_programId u acc hacc)

/-- Inserting one update into the grouping moves it to the end of its
group: the concatenation of all groups is a permutation of the previous
concatenation with the update appended. -/
theorem groupInsert_flatten_perm (acc : List (String × List BufferedUpdate))
    (u : BufferedUpdate) :
    List.Perm (((groupInsert acc u).map Prod.snd).flatten)
      ((acc.map Prod.snd).flatten ++ [u]) := by
  induction acc with
  | nil => simp [groupInsert]
  | cons e rest ih =>
    obtain ⟨k, gl⟩ := e
    simp only [groupInsert]
    by_cases hk : k == u.programId
    · rw [if_pos hk]
      simp only [List.map_cons, List.flatten_cons, List.append_assoc]
      exact List.Perm.append_left gl List.perm_append_comm
    · rw [if_neg hk]
      simp only [List.map_cons, List.flatten_cons, List.append_assoc]
      exact List.Perm.append_left gl ih

/-- The concatenation of all groups built by folding groupInsert is a
permutation of the accumulated concatenation followed by the folded
snapshot. -/
theorem groupFold_flatten_perm (L : List BufferedUpdate) :
    ∀ acc, List.Perm (((L.foldl groupInsert acc).map Prod.snd).flatten)
      ((acc.map Prod.snd).flatten ++ L) := by
  induction L with
  | nil => intro acc; simp
  | cons u L ih =>
    intro acc
    refine ((ih (groupInsert acc u)).trans
      (((groupInsert_flatten_perm acc u).append_right L).trans ?_))
    rw [List.append_assoc]
    exact List.Perm.refl _

/-- A left fold that appends a function of each element equals the
accumulator followed by the flattened map. -/
theorem foldl_append_eq_flatten {α β : Type} (f : α → List β) :
    ∀ (gs : List α) (acc : List β),
      gs.foldl (fun a g => a ++ f g) acc = acc ++ (gs.map f).flatten := by
  intro gs
  induction gs with
  | nil => intro acc; simp
  | cons g gs ih =>
    intro acc
    simp only [List.foldl_cons, List.map_cons, List.flatten_cons, ih,
      List.append_assoc]

/-- The states array of processBuffer is a permutation of the per-update
row computation over the snapshot, with each update looked up under its
own programId. -/
theorem computeStates_perm (lookup : String → String → Option String)
    (updates : List BufferedUpdate) :
    List.Perm (computeStates lookup updates)
      (updates.filterMap (fun v => rowOf lookup v.programId v)) := by
  unfold computeStates
  rw [foldl_append_eq_flatten (fun g => g.2.filterMap (rowOf lookup g.1))
    (updates.foldl groupInsert []) []]
  rw [List.nil_append]
  have hpid := groupFold_programId updates [] (by intro g hg; cases hg)
  have hmap : (updates.foldl groupInsert []).map
        (fun g => g.2.filterMap (rowOf lookup g.1)) =
      (updates.foldl groupInsert []).map
        (fun g => g.2.filterMap (fun v => rowOf lookup v.programId v)) := by
    apply List.map_congr_left
    intro g hg
    apply List.filterMap_congr
    intro v hv
    rw [hpid g hg v hv]
  rw [hmap]
  have hflat : ((updates.foldl groupInsert []).map
        (fun g => g.2.filterMap (fun v => rowOf lookup v.programId v))).flatten =
      List.filterMap (fun v => rowOf lookup v.programId v)
        (((updates.foldl groupInsert []).map Prod.snd).flatten) := by
    rw [List.filterMap_flatten, List.map_map]
    rfl
  rw [hflat]
  have hperm := groupFold_flatten_perm updates []
  simp only [List.map_nil, List.flatten_nil, List.nil_append] at hperm
  exact hperm.filterMap _

/-- A produced row carries its update's pubkey, and requires a stored
baseline hash for that pubkey. -/
theorem rowOf_pubkey (lookup : String → String → Option String)
    (pid : String) (u : BufferedUpdate) (r : AccountState)
    (h : rowOf lookup pid u = some r) :
    r.pubkey = u.pubkey ∧ lookup pid u.pubkey ≠ none := by
  unfold rowOf at h
  cases hl : lookup pid u.pubkey with
  | none => rw [hl] at h; cases h
  | some s =>
    rw [hl] at h
    dsimp only at h
    by_cases hs : s == u.dataHash
    · rw [if_pos hs] at h; cases h
    · rw [if_neg hs] at h
      cases h
      exact ⟨rfl, Option.some_ne_none s⟩

/-- C4: a buffered update whose pubkey has no stored baseline hash in the
Store lookup produces no HistoryRow, regardless of how many updates
arrived for that pubkey before the flush: no inserted row carries that
pubkey. -/
theorem c4_no_baseline_no_row (H : List Nat → String)
    (lookup : String → String → Option String) (insertOk : Bool)
    (buffer : Buffer) (arrivals : List AccountUpdate) (p : String)
    (hnb : ∀ u ∈ buffer.map Prod.snd, u.pubkey = p →
      lookup u.programId u.pubkey = none) :
    ∀ row ∈ (processBuffer H lookup insertOk buffer arrivals).inserted,
      row.pubkey ≠ p := by
  intro row hrow hrp
  have hmem : row ∈ computeStates lookup (buffer.map Prod.snd) := by
    unfold processBuffer at hrow
    by_cases hbe : buffer.isEmpty
    · rw [if_pos hbe] at hrow; cases hrow
    · rw [if_neg hbe] at hrow
      by_cases hc : ¬(computeStates lookup (buffer.map Prod.snd)).isEmpty ∧
          insertOk = false
      · rw [if_pos hc] at hrow; cases hrow
      · rw [if_neg hc] at hrow; exact hrow
  have hmem2 : row ∈ (buffer.map Prod.snd).filterMap
      (fun v => rowOf lookup v.programId v) :=
    (computeStates_perm lookup (buffer.map Prod.snd)).mem_iff.mp hmem
  obtain ⟨u, hu, hru⟩ := List.mem_filterMap.mp hmem2
  obtain ⟨hpk, hsome⟩ := rowOf_pubkey lookup u.programId u row hru
  exact hsome (hnb u hu (hpk ▸ hrp))

/-- The one row the concrete C4 flush inserts: the update-row of pubkey
A, whose baseline hash 00 differs from the content hash of [1]. -/
def c4Row : AccountState :=
  { pubkey := "A", program_id := "P", discriminator := none, slot := 1
    change_type := "update", data := toBase64 [1], data_hash := hexHash [1] }

/-- Witness for C4: with updates buffered for A (baseline present) and B
(no baseline), the flush inserts exactly A's row, and applying the
theorem to that concrete inserted row shows it is not B's. -/
theorem c4_no_baseline_no_row_witness : c4Row.pubkey ≠ "B" :=
  c4_no_baseline_no_row hexHash lookupA true
    (addUpdate hexHash (addUpdate hexHash [] updA) updB) [] "B"
    (by decide) c4Row (by decide)

/-- Well-formed buffer map: each entry's value carries the entry's key as
its pubkey, and the keys are unique. This holds for the empty buffer and
is preserved by addUpdate. -/
def WFBuffer (b : Buffer) : Prop :=
  (∀ e ∈ b, e.2.pubkey = e.1) ∧ (b.map Prod.fst).Nodup

/-- Keys after Map.set: unchanged when the key is already present,
appended at the end otherwise. -/
theorem mapSet_keys (k : String) (v : BufferedUpdate) :
    ∀ b : Buffer, (mapSet b k v).map Prod.fst =
      if k ∈ b.map Prod.fst then b.map Prod.fst
      else b.map Prod.fst ++ [k] := by
  intro b
  induction b with
  | nil => simp [mapSet]
  | cons e rest ih =>
    obtain ⟨k', v'⟩ := e
    by_cases hk : k' = k
    · subst hk
      simp [mapSet]
    · have hkb : (k' == k) = false := beq_eq_false_iff_ne.mpr hk
      have hne : k ≠ k' := fun h => hk h.symm
      simp only [mapSet, hkb, Bool.false_eq_true, if_false, List.map_cons, ih]
      by_cases hm : k ∈ rest.map Prod.fst
      · rw [if_pos hm, if_pos (List.mem_cons.mpr (Or.inr hm))]
      · rw [if_neg hm, if_neg (fun hc => by
          rcases List.mem_cons.mp hc with hc | hc
          · exact hne hc
          · exact hm hc)]
        rfl

/-- Values after Map.set still carry their keys as pubkeys. -/
theorem mapSet_values (k : String) (v : BufferedUpdate) (hv : v.pubkey = k) :
    ∀ b : Buffer, (∀ e ∈ b, e.2.pubkey = e.1) →
      ∀ e ∈ mapSet b k v, e.2.pubkey = e.1 := by
  intro b
  induction b with
  | nil =>
    intro _ e he
    simp only [mapSet, List.mem_singleton] at he
    subst he
    exact hv
  | cons f rest ih =>
    intro hvals e he
    obtain ⟨k', v'⟩ := f
    simp only [mapSet] at he
    by_cases hk : k' == k
    · rw [if_pos hk] at he
      rcases List.mem_cons.mp he with he | he
      · subst he; exact hv
      · exact hvals _ (List.mem_cons_of_mem _ he)
    · rw [if_neg hk] at he
      rcases List.mem_cons.mp he with he | he
      · subst he; exact hvals _ (List.mem_cons_self _ _)
      · exact ih (fun e' he' => hvals e' (List.mem_cons_of_mem _ he')) e he

/-- Map.set preserves buffer well-formedness. -/
theorem mapSet_wf (b : Buffer) (k : String) (v : BufferedUpdate)
    (hwf : WFBuffer b) (hv : v.pubkey = k) : WFBuffer (mapSet b k v) := by
  refine ⟨mapSet_values k v hv b hwf.1, ?_⟩
  rw [mapSet_keys]
  by_cases hm : k ∈ b.map Prod.fst
  · rw [if_pos hm]; exact hwf.2
  · rw [if_neg hm]
    have hperm : List.Perm (b.map Prod.fst ++ [k]) (k :: b.map Prod.fst) :=
      List.perm_append_comm
    rw [hperm.nodup_iff]
    exact List.nodup_cons.mpr ⟨hm, hwf.2⟩

/-- Map.set never empties the buffer. -/
theorem mapSet_ne_nil (b : Buffer) (k : String) (v : BufferedUpdate) :
    mapSet b k v ≠ [] := by
  cases b with
  | nil => simp [mapSet]
  | cons e rest =>
    obtain ⟨k', v'⟩ := e
    simp only [mapSet]
    by_cases hk : k' == k
    · rw [if_pos hk]; exact List.cons_ne_nil _ _
    · rw [if_neg hk]; exact List.cons_ne_nil _ _

/-- Lookup of a buffer entry by key (Map.get). -/
def bufGet (b : Buffer) (k : String) : Option BufferedUpdate :=
  (b.find? (fun e => e.1 == k)).map Prod.snd

/-- Lookup after Map.set: the written key maps to the new value and every
other key is unchanged. -/
theorem bufGet_mapSet (k q : String) (v : BufferedUpdate) :
    ∀ b : Buffer, bufGet (mapSet b k v) q = if q = k then some v else bufGet b q := by
  intro b
  induction b with
  | nil =>
    by_cases h : q = k
    · subst h; simp [mapSet, bufGet]
    · have h1 : (k == q) = false := beq_eq_false_iff_ne.mpr (fun hh => h hh.symm)
      simp [mapSet, bufGet, h1, h]
  | cons e rest ih =>
    obtain ⟨k', v'⟩ := e
    by_cases hk : k' = k
    · subst hk
      simp only [mapSet, beq_self_eq_true, if_true]
      by_cases h : q = k'
      · subst h; simp [bufGet]
      · have h1 : (k' == q) = false := beq_eq_false_iff_ne.mpr (fun hh => h hh.symm)
        simp [bufGet, h1, h]
    · have hkb : (k' == k) = false := beq_eq_false_iff_ne.mpr hk
      simp only [mapSet, hkb, Bool.false_eq_true, if_false]
      by_cases h : q = k'
      · subst h
        have h1 : (q == q) = true := beq_self_eq_true q
        simp [bufGet, h1, hk]
      · have h1 : (k' == q) = false := beq_eq_false_iff_ne.mpr (fun hh => h hh.symm)
        simp only [bufGet, List.find?_cons, h1]
        rw [show ((rest.find? (fun e => e.1 == q)).map Prod.snd) = bufGet rest q from rfl]
        exact ih

/-- With values carrying their keys, a key absent from the buffer has no
value with its pubkey. -/
theorem filter_values_not_mem (p : String) :
    ∀ b : Buffer, (∀ e ∈ b, e.2.pubkey = e.1) → p ∉ b.map Prod.fst →
      (b.map Prod.snd).filter (fun u => u.pubkey == p) = [] := by
  intro b
  induction b with
  | nil => intro _ _; rfl
  | cons e rest ih =>
    intro hvals hmem
    obtain ⟨k, v⟩ := e
    have hvk : v.pubkey = k := hvals (k, v) (List.mem_cons_self _ _)
    have hkp : k ≠ p := fun h => hmem (by simp [h])
    have hb : (v.pubkey == p) = false := by
      rw [hvk]; exact beq_eq_false_iff_ne.mpr hkp
    simp only [List.map_cons, List.filter_cons, hb, Bool.false_eq_true, if_false]
    exact ih (fun e' he' => hvals e' (List.mem_cons_of_mem _ he'))
      (fun h => hmem (List.mem_cons_of_mem _ h))

/-- In a well-formed buffer, the values carrying pubkey p are exactly the
value stored under key p. -/
theorem filter_values_eq_bufGet (p : String) :
    ∀ b : Buffer, WFBuffer b →
      (b.map Prod.snd).filter (fun u => u.pubkey == p) = (bufGet b p).toList := by
  intro b
  induction b with
  | nil => intro _; rfl
  | cons e rest ih =>
    intro hwf
    obtain ⟨k, v⟩ := e
    have hvk : v.pubkey = k := hwf.1 (k, v) (List.mem_cons_self _ _)
    have hnk : k ∉ rest.map Prod.fst := (List.nodup_cons.mp hwf.2).1
    have hwfr : WFBuffer rest :=
      ⟨fun e' he' => hwf.1 e' (List.mem_cons_of_mem _ he'),
        (List.nodup_cons.mp hwf.2).2⟩
    by_cases hk : k = p
    · subst hk
      have hb : (v.pubkey == k) = true := by rw [hvk]; exact beq_self_eq_true k
      simp only [List.map_cons, List.filter_cons, hb, if_true]
      rw [filter_values_not_mem k rest hwfr.1 hnk]
      simp [bufGet]
    · have hb : (v.pubkey == p) = false := by
        rw [hvk]; exact beq_eq_false_iff_ne.mpr hk
      have hkb : (k == p) = false := beq_eq_false_iff_ne.mpr hk
      simp only [List.map_cons, List.filter_cons, hb, Bool.false_eq_true, if_false]
      rw [ih hwfr]
      simp [bufGet, List.find?_cons, hkb]

/-- addUpdate preserves buffer well-formedness. -/
theorem addUpdate_wf (H : List Nat → String) (b : Buffer) (u : AccountUpdate)
    (hwf : WFBuffer b) : WFBuffer (addUpdate H b u) :=
  mapSet_wf b u.pubkey (mkBuffered H u) hwf rfl

/-- Folding addUpdate preserves buffer well-formedness. -/
theorem foldl_addUpdate_wf (H : List Nat → String) (us : List AccountUpdate) :
    ∀ b : Buffer, WFBuffer b → WFBuffer (us.foldl (addUpdate H) b) := by
  induction us with
  | nil => intro b hwf; exact hwf
  | cons u us ih => intro b hwf; exact ih (addUpdate H b u) (addUpdate_wf H b u hwf)

/-- The empty buffer is well-formed. -/
theorem wfBuffer_nil : WFBuffer [] :=
  ⟨fun e he => absurd he (List.not_mem_nil e), List.nodup_nil⟩

/-- Rows keep their update's pubkey, so filtering produced rows by pubkey
matches filtering the updates first. -/
theorem filter_filterMap_pubkey (lookup : String → String → Option String)
    (L : List BufferedUpdate) (p : String) :
    (L.filterMap (fun v => rowOf lookup v.programId v)).filter
        (fun r => r.pubkey == p) =
      (L.filter (fun v => v.pubkey == p)).filterMap
        (fun v => rowOf lookup v.programId v) := by
  induction L with
  | nil => rfl
  | cons u L ih =>
    cases hr : rowOf lookup u.programId u with
    | none =>
      simp only [List.filterMap_cons, hr, List.filter_cons]
      by_cases hp : (u.pubkey == p) = true
      · simp only [hp, if_true, List.filterMap_cons, hr, ih]
      · have hp' : (u.pubkey == p) = false := eq_false_of_ne_true hp
        simp only [hp', Bool.false_eq_true, if_false, ih]
    | some r =>
      have hpk := (rowOf_pubkey lookup u.programId u r hr).1
      simp only [List.filterMap_cons, hr, List.filter_cons]
      by_cases hp : (u.pubkey == p) = true
      · have hrp : (r.pubkey == p) = true := by rw [hpk]; exact hp
        simp only [hp, hrp, if_true, List.filterMap_cons, hr, ih]
      · have hp' : (u.pubkey == p) = false := eq_false_of_ne_true hp
        have hrp : (r.pubkey == p) = false := by rw [hpk]; exact hp'
        simp only [hp', hrp, Bool.false_eq_true, if_false, ih]

/-- C5: for a sequence of updates to the same pubkey buffered within one
flush interval, on a buffer holding no other entry for that pubkey, the
flush produces at most one HistoryRow for that pubkey, determined solely
by the last update of the sequence: no row when the stored baseline hash
equals the last update's content hash, and otherwise exactly one row
whose changeType is delete when the last update is deleted (zero
lamports or empty data) and update otherwise, carrying the last update's
content hash. -/
theorem c5_last_update_determines_row (H : List Nat → String)
    (lookup : String → String → Option String) (b0 : Buffer)
    (us : List AccountUpdate) (ul : AccountUpdate) (p hsh : String)
    (hwf : WFBuffer b0)
    (hall : ∀ u ∈ us, u.pubkey = p) (hl : ul.pubkey = p)
    (hbase : lookup ul.owner p = some hsh) :
    ((processBuffer H lookup true ((us ++ [ul]).foldl (addUpdate H) b0) []).inserted).filter
        (fun r => r.pubkey == p) =
      (if hsh = H ul.data then []
       else [{ pubkey := ul.pubkey
               program_id := ul.owner
               discriminator := (mkBuffered H ul).discriminator
               slot := ul.slot
               change_type :=
                 if ul.lamports == 0 || ul.data.length == 0 then "delete" else "update"
               data := toBase64 ul.data
               data_hash := H ul.data }]) := by
  have hsplit : (us ++ [ul]).foldl (addUpdate H) b0 =
      addUpdate H (us.foldl (addUpdate H) b0) ul := by
    rw [List.foldl_append]
    rfl
  have hwfb : WFBuffer ((us ++ [ul]).foldl (addUpdate H) b0) :=
    foldl_addUpdate_wf H (us ++ [ul]) b0 hwf
  have hget : bufGet ((us ++ [ul]).foldl (addUpdate H) b0) p =
      some (mkBuffered H ul) := by
    rw [hsplit]
    unfold addUpdate
    rw [bufGet_mapSet]
    rw [if_pos hl.symm]
  have hfv : (((us ++ [ul]).foldl (addUpdate H) b0).map Prod.snd).filter
      (fun u => u.pubkey == p) = [mkBuffered H ul] := by
    rw [filter_values_eq_bufGet p _ hwfb, hget]
    rfl
  have hne : (us ++ [ul]).foldl (addUpdate H) b0 ≠ [] := by
    rw [hsplit]
    exact mapSet_ne_nil _ _ _
  have hbe : ((us ++ [ul]).foldl (addUpdate H) b0).isEmpty = false := by
    cases hc : (us ++ [ul]).foldl (addUpdate H) b0 with
    | nil => exact absurd hc hne
    | cons e rest => rfl
  have hins : (processBuffer H lookup true ((us ++ [ul]).foldl (addUpdate H) b0) []).inserted =
      computeStates lookup (((us ++ [ul]).foldl (addUpdate H) b0).map Prod.snd) := by
    unfold processBuffer
    rw [hbe]
    simp
  rw [hins]
  have hperm := (computeStates_perm lookup
    (((us ++ [ul]).foldl (addUpdate H) b0).map Prod.snd)).filter (fun r => r.pubkey == p)
  rw [filter_filterMap_pubkey, hfv] at hperm
  have hrowOf : rowOf lookup (mkBuffered H ul).programId (mkBuffered H ul) =
      (if hsh = H ul.data then none
       else some
         { pubkey := ul.pubkey
           program_id := ul.owner
           discriminator := (mkBuffered H ul).discriminator
           slot := ul.slot
           change_type :=
             if ul.lamports == 0 || ul.data.length == 0 then "delete" else "update"
           data := toBase64 ul.data
           data_hash := H ul.data }) := by
    unfold rowOf
    have hpid : (mkBuffered H ul).programId = ul.owner := rfl
    have hpk : (mkBuffered H ul).pubkey = ul.pubkey := rfl
    rw [hpid, hpk, hl, hbase]
    by_cases hd : hsh = H ul.data
    · have hbq : (hsh == (mkBuffered H ul).dataHash) = true := by
        rw [show (mkBuffered H ul).dataHash = H ul.data from rfl, hd]
        exact beq_self_eq_true _
      rw [if_pos hd]
      dsimp only
      rw [if_pos hbq]
    · have hbq : (hsh == (mkBuffered H ul).dataHash) = false := by
        rw [show (mkBuffered H ul).dataHash = H ul.data from rfl]
        exact beq_eq_false_iff_ne.mpr hd
      rw [if_neg hd]
      dsimp only
      rw [if_neg (by rw [hbq]; exact Bool.false_ne_true)]
      rfl
  have heval : List.filterMap (fun v => rowOf lookup v.programId v) [mkBuffered H ul] =
      (if hsh = H ul.data then []
       else [{ pubkey := ul.pubkey
               program_id := ul.owner
               discriminator := (mkBuffered H ul).discriminator
               slot := ul.slot
               change_type :=
                 if ul.lamports == 0 || ul.data.length == 0 then "delete" else "update"
               data := toBase64 ul.data
               data_hash := H ul.data }]) := by
    rw [List.filterMap_cons, List.filterMap_nil, hrowOf]
    by_cases hd : hsh = H ul.data
    · rw [if_pos hd, if_pos hd]
    · rw [if_neg hd, if_neg hd]
  rw [heval] at hperm
  by_cases hd : hsh = H ul.data
  · rw [if_pos hd] at hperm ⊢
    exact hperm.eq_nil
  · rw [if_neg hd] at hperm ⊢
    exact List.perm_singleton.mp hperm

/-- Earlier update for pubkey A within the same flush interval. -/
def updA1 : AccountUpdate :=
  { pubkey := "A", owner := "P", lamports := 7, slot := 3, data := [9]
    executable := false, rentEpoch := 0 }

/-- Later, deleting update for pubkey A within the same flush interval. -/
def updA2 : AccountUpdate :=
  { pubkey := "A", owner := "P", lamports := 0, slot := 4, data := [2]
    executable := false, rentEpoch := 0 }

/-- Witness for C5 at a concrete two-update sequence for pubkey A under a
stored baseline hash that differs from the last update's hash. -/
theorem c5_last_update_determines_row_witness :
    ((processBuffer hexHash lookupA true
        (([updA1] ++ [updA2]).foldl (addUpdate hexHash) []) []).inserted).filter
        (fun r => r.pubkey == "A") =
      (if "00" = hexHash updA2.data then []
       else [{ pubkey := updA2.pubkey
               program_id := updA2.owner
               discriminator := (mkBuffered hexHash updA2).discriminator
               slot := updA2.slot
               change_type :=
                 if updA2.lamports == 0 || updA2.data.length == 0 then "delete" else "update"
               data := toBase64 updA2.data
               data_hash := hexHash updA2.data }]) :=
  c5_last_update_determines_row hexHash lookupA [] [updA1] updA2 "A" "00"
    wfBuffer_nil (by decide) rfl rfl


/-- In a list sorted weakly descending, every element is at least the
last one. -/
theorem pairwise_ge_getLast? :
    ∀ (l : List Nat), List.Pairwise (· ≥ ·) l → ∀ c, l.getLast? = some c →
      ∀ a ∈ l, c ≤ a := by
  intro l
  induction l with
  | nil => intro _ c hc; cases hc
  | cons x rest ih =>
    intro hp c hc a ha
    cases rest with
    | nil =>
      rw [List.getLast?_singleton] at hc
      cases hc
      simp only [List.mem_singleton] at ha
      subst ha
      exact Nat.le_refl _
    | cons y rest2 =>
      rw [List.getLast?_cons_cons] at hc
      rcases List.mem_cons.mp ha with ha | ha
      · subst ha
        exact (List.pairwise_cons.mp hp).1 c (List.mem_of_getLast?_eq_some hc)
      · exact ih (List.pairwise_cons.mp hp).2 c hc a ha

/-- C9: a record with fewer than K = 10 stored rows is untouched by the
pruner; a record with at least 10 rows and distinct timestamps keeps
exactly the 10 rows at or after the cutoff (the 10th-newest timestamp),
the single bulk delete removes exactly the other rows (each strictly
older than every kept row), and a concrete record with 15 rows keeps the
10 most recent and loses exactly the 5 oldest. -/
theorem c9_prune_keeps_k_most_recent :
    (∀ rows : List Nat, rows.length < 10 → pruneAccountChanges 10 rows = (rows, 0)) ∧
    (∀ rows : List Nat, 10 ≤ rows.length → rows.Nodup →
      (pruneAccountChanges 10 rows).1.length = 10 ∧
      (pruneAccountChanges 10 rows).2 = rows.length - 10 ∧
      (∀ t ∈ rows, t ∉ (pruneAccountChanges 10 rows).1 →
        ∀ u ∈ (pruneAccountChanges 10 rows).1, t < u)) ∧
    pruneAccountChanges 10 [1, 2, 3, 4, 5, 6, 7, 8, 9, 10, 11, 12, 13, 14, 15] =
      ([6, 7, 8, 9, 10, 11, 12, 13, 14, 15], 5) := by
  refine ⟨?_, ?_, by decide⟩
  · intro rows hlen
    unfold pruneAccountChanges
    have h1 : ((List.insertionSort (· ≥ ·) rows).take 10).length < 10 := by
      rw [List.length_take, List.length_insertionSort]
      omega
    rw [if_pos h1]
  · intro rows hlen hnd
    have hperm : List.Perm (List.insertionSort (· ≥ ·) rows) rows :=
      List.perm_insertionSort _ rows
    have hlenL : (List.insertionSort (· ≥ ·) rows).length = rows.length :=
      hperm.length_eq
    have hsor : List.Pairwise (· ≥ ·) (List.insertionSort (· ≥ ·) rows) :=
      List.sorted_insertionSort _ rows
    have hndL : (List.insertionSort (· ≥ ·) rows).Nodup := hperm.nodup_iff.mpr hnd
    have hstrict : List.Pairwise (· > ·) (List.insertionSort (· ≥ ·) rows) :=
      (hsor.and hndL).imp (fun hab => lt_of_le_of_ne hab.1 (Ne.symm hab.2))
    have hkl : ((List.insertionSort (· ≥ ·) rows).take 10).length = 10 := by
      rw [List.length_take]
      omega
    have htne : (List.insertionSort (· ≥ ·) rows).take 10 ≠ [] := by
      intro h
      rw [h] at hkl
      exact absurd hkl (by decide)
    have hnotlt : ¬((List.insertionSort (· ≥ ·) rows).take 10).length < 10 := by
      rw [hkl]
      exact Nat.lt_irrefl 10
    have hcut : pruneCutoff 10 rows =
        ((List.insertionSort (· ≥ ·) rows).take 10).getLast htne := by
      unfold pruneCutoff
      rw [List.getLastD_eq_getLast?, List.getLast?_eq_getLast _ htne]
      rfl
    have hcut_mem : pruneCutoff 10 rows ∈ (List.insertionSort (· ≥ ·) rows).take 10 := by
      rw [hcut]
      exact List.getLast_mem htne
    have htake_pw : List.Pairwise (· ≥ ·) ((List.insertionSort (· ≥ ·) rows).take 10) :=
      hsor.sublist (List.take_sublist 10 _)
    have hcut_le : ∀ a ∈ (List.insertionSort (· ≥ ·) rows).take 10,
        pruneCutoff 10 rows ≤ a := by
      have h2 : ((List.insertionSort (· ≥ ·) rows).take 10).getLast? =
          some (pruneCutoff 10 rows) := by
        rw [hcut]
        exact List.getLast?_eq_getLast _ htne
      exact pairwise_ge_getLast? _ htake_pw _ h2
    have hsplitL : (List.insertionSort (· ≥ ·) rows).take 10 ++
        (List.insertionSort (· ≥ ·) rows).drop 10 = List.insertionSort (· ≥ ·) rows :=
      List.take_append_drop 10 _
    have hcross : ∀ a ∈ (List.insertionSort (· ≥ ·) rows).take 10,
        ∀ b ∈ (List.insertionSort (· ≥ ·) rows).drop 10, b < a := by
      have hp : List.Pairwise (· > ·) ((List.insertionSort (· ≥ ·) rows).take 10 ++
          (List.insertionSort (· ≥ ·) rows).drop 10) := by
        rw [hsplitL]
        exact hstrict
      exact fun a ha b hb => (List.pairwise_append.mp hp).2.2 a ha b hb
    have hdrop_lt : ∀ b ∈ (List.insertionSort (· ≥ ·) rows).drop 10,
        b < pruneCutoff 10 rows :=
      fun b hb => hcross _ hcut_mem b hb
    have hcount_keep : (rows.filter (fun t => decide (pruneCutoff 10 rows ≤ t))).length = 10 := by
      rw [← List.countP_eq_length_filter]
      rw [← hperm.countP_eq]
      rw [← hsplitL, List.countP_append]
      have h1 : List.countP (fun t => decide (pruneCutoff 10 rows ≤ t))
          ((List.insertionSort (· ≥ ·) rows).take 10) =
          ((List.insertionSort (· ≥ ·) rows).take 10).length := by
        rw [List.countP_eq_length]
        intro a ha
        exact decide_eq_true (hcut_le a ha)
      have h2 : List.countP (fun t => decide (pruneCutoff 10 rows ≤ t))
          ((List.insertionSort (· ≥ ·) rows).drop 10) = 0 := by
        rw [List.countP_eq_zero]
        intro b hb hdec
        exact absurd (of_decide_eq_true hdec) (Nat.not_le.mpr (hdrop_lt b hb))
      rw [h1, h2, hkl]
    have hcount_del : (rows.filter (fun t => decide (t < pruneCutoff 10 rows))).length =
        rows.length - 10 := by
      rw [← List.countP_eq_length_filter]
      rw [← hperm.countP_eq]
      rw [← hsplitL, List.countP_append]
      have h1 : List.countP (fun t => decide (t < pruneCutoff 10 rows))
          ((List.insertionSort (· ≥ ·) rows).take 10) = 0 := by
        rw [List.countP_eq_zero]
        intro a ha hdec
        exact absurd (of_decide_eq_true hdec) (Nat.not_lt.mpr (hcut_le a ha))
      have h2 : List.countP (fun t => decide (t < pruneCutoff 10 rows))
          ((List.insertionSort (· ≥ ·) rows).drop 10) =
          ((List.insertionSort (· ≥ ·) rows).drop 10).length := by
        rw [List.countP_eq_length]
        intro b hb
        exact decide_eq_true (hdrop_lt b hb)
      rw [h1, h2, List.length_drop, hlenL]
      omega
    have hmain : pruneAccountChanges 10 rows =
        (rows.filter (fun t => decide (pruneCutoff 10 rows ≤ t)),
          (rows.filter (fun t => decide (t < pruneCutoff 10 rows))).length) := by
      unfold pruneAccountChanges
      rw [if_neg hnotlt]
    rw [hmain]
    refine ⟨hcount_keep, hcount_del, ?_⟩
    intro t ht htnot u hu
    have htc : t < pruneCutoff 10 rows := by
      by_contra hcon
      exact htnot (List.mem_filter.mpr ⟨ht, decide_eq_true (Nat.not_lt.mp hcon)⟩)
    have huc : pruneCutoff 10 rows ≤ u :=
      of_decide_eq_true (List.mem_filter.mp hu).2
    exact Nat.lt_of_lt_of_le htc huc

/-- Witness for C9 at concrete records: a record of three rows is
untouched, and a record with the fifteen distinct timestamps 1..15 keeps
ten rows and deletes five. -/
theorem c9_prune_keeps_k_most_recent_witness :
    pruneAccountChanges 10 [3, 1, 2] = ([3, 1, 2], 0) ∧
    (pruneAccountChanges 10 [1, 2, 3, 4, 5, 6, 7, 8, 9, 10, 11, 12, 13, 14, 15]).1.length = 10 ∧
    (pruneAccountChanges 10 [1, 2, 3, 4, 5, 6, 7, 8, 9, 10, 11, 12, 13, 14, 15]).2 =
      [1, 2, 3, 4, 5, 6, 7, 8, 9, 10, 11, 12, 13, 14, 15].length - 10 :=
  ⟨c9_prune_keeps_k_most_recent.1 [3, 1, 2] (by decide),
    (c9_prune_keeps_k_most_recent.2.1 [1, 2, 3, 4, 5, 6, 7, 8, 9, 10, 11, 12, 13, 14, 15]
      (by decide) (by decide)).1,
    (c9_prune_keeps_k_most_recent.2.1 [1, 2, 3, 4, 5, 6, 7, 8, 9, 10, 11, 12, 13, 14, 15]
      (by decide) (by decide)).2.1⟩


/-- Concrete state remembering one subscription, as after a disconnect,
used to witness C6: a successful connect writes nothing to the stream. -/
def rememberedGrpcState : GrpcState :=
  { streamOpen := false, pingTimer := false, sent := []
    subscriptions := [("progA", "program_progA")]
    reconnecting := false, reconnectAttempts := 0 }

/-- Witness for C6 at a concrete state with one remembered subscription. -/
theorem c6_connect_resends_nothing_witness :
    connect rememberedGrpcState true = Except.ok (connectOkState rememberedGrpcState) ∧
    (connectOkState rememberedGrpcState).sent = rememberedGrpcState.sent ∧
    (connectOkState rememberedGrpcState).streamOpen = true :=
  c6_connect_resends_nothing rememberedGrpcState


end MyAdmin
